import Mathlib

/-!
Verification of the polka-dot texture generator (`util.py`) against its
specification.

The development shallowly embeds the code of `src/util.py`:

* `great_circle_distance` / `haversine_term` embed `great_circle_distance`
  (util.py lines 29-51); the incremental accumulation of the Haversine
  intermediate `result` (lines 47-48) is the definition `haversine_term`,
  and line 49 is `great_circle_distance`.
* `cylindric_to_spheric` embeds `cylindric_to_spheric` (lines 54-75).
* `SamplerState`, `nextDot`, `loopStep` embed the abstract rejection-sampler
  base class `_iter_random_dots_base` (lines 78-135).  Python's global
  mutable random generator is embedded as a stream: the state carries a
  draw counter `t`, and the candidate generator `gen` receives the counter
  and the current accepted list (`create_random_point` reads
  `self.dots` in the plane/polygon subclasses).  `StepResult.exhausted k`
  models the `logging.warning` diagnostic carrying `len(self.dots) = k`
  followed by `raise StopIteration` (lines 120-125); `StepResult.complete`
  models the `raise StopIteration` on line 135.
* `sphere_point_distance_valid` embeds `iter_dots_on_sphere.point_distance_valid`
  (lines 166-167); `plane_point_distance_valid` embeds
  `iter_dots_on_plane.point_distance_valid` (lines 208-213).  Python floats
  are embedded as real numbers, so the boolean comparisons use classical
  decidability.
* `plane_n`, `sorted_radii`, `rand_in_center`, `create_random_point` embed
  `iter_dots_on_plane.__init__`, `_rand_in_center` and
  `create_random_point` (lines 201-221).
-/

/-- Per-run mutable state of `_iter_random_dots_base` (util.py lines 100-105):
the accepted list `self.dots`, the consecutive-miss counter `self.misses`,
and the position `t` of the global random stream (the number of candidates
drawn so far, embedding Python's global RNG state). -/
structure SamplerState (α : Type) where
  dots : List α
  misses : Nat
  t : Nat
deriving Repr, DecidableEq

/-- Observable outcome of one call to `__next__` (util.py lines 118-135).
`yield p` is `return candidate`; `exhausted k` is the warning diagnostic
reporting that only `k` points were created followed by `StopIteration`
(lines 120-125); `complete` is the `StopIteration` raised when the
while-condition `len(self.dots) < self.n` fails (line 135). -/
inductive StepResult (α : Type) where
  | yield (p : α)
  | exhausted (produced : Nat)
  | complete
deriving Repr, DecidableEq

/-- Outcome of a single iteration of the `while` loop inside `__next__`. -/
inductive LoopStep (α : Type) where
  | reject
  | accept (c : α)
  | exhaust
  | done
deriving Repr, DecidableEq

/-- The state at sampler construction (util.py lines 104-105):
`self.dots = []`, `self.misses = 0`, and the random stream at position 0. -/
def initState {α : Type} : SamplerState α :=
  ⟨[], 0, 0⟩

/-- One call to `_iter_random_dots_base.__next__` (util.py lines 118-135).
`n` is `self.n`, `allowed` is `self.allowed_misses`, `valid` is the abstract
method `point_distance_valid` and `gen` the abstract method
`create_random_point` (given the random-stream position and `self.dots`).
A rejected candidate (`misses += 1; continue`) is the recursive call; the
recursion is well founded because `continue` is only reached when
`misses < allowed`, so `allowed - misses` strictly decreases. -/
def nextDot {α : Type} (n allowed : Nat) (valid : α → α → Bool)
    (gen : Nat → List α → α) (s : SamplerState α) :
    StepResult α × SamplerState α :=
  if _h1 : s.dots.length < n then
    if _h2 : allowed ≤ s.misses then
      (StepResult.exhausted s.dots.length, s)
    else
      let c := gen s.t s.dots
      if s.dots.any (fun dot => valid dot c) then
        nextDot n allowed valid gen ⟨s.dots, s.misses + 1, s.t + 1⟩
      else
        (StepResult.yield c, ⟨s.dots ++ [c], 0, s.t + 1⟩)
  else
    (StepResult.complete, s)
termination_by allowed - s.misses
decreasing_by simp_wf; omega

/-- The state reached after one call to `__next__`. -/
def stepState {α : Type} (n allowed : Nat) (valid : α → α → Bool)
    (gen : Nat → List α → α) (s : SamplerState α) : SamplerState α :=
  (nextDot n allowed valid gen s).2

/-- The state reached after `k` calls to `__next__` on a freshly constructed
sampler. -/
def runState {α : Type} (n allowed : Nat) (valid : α → α → Bool)
    (gen : Nat → List α → α) (k : Nat) : SamplerState α :=
  (stepState n allowed valid gen)^[k] initState

/-- A single iteration of the `while` loop of `__next__` (util.py lines
119-134): check the while-condition, check the miss budget, draw one
candidate, and either reject it (`misses += 1; continue`) or accept it
(append, reset `misses`, return). -/
def loopStep {α : Type} (n allowed : Nat) (valid : α → α → Bool)
    (gen : Nat → List α → α) (s : SamplerState α) :
    LoopStep α × SamplerState α :=
  if s.dots.length < n then
    if allowed ≤ s.misses then
      (LoopStep.exhaust, s)
    else
      let c := gen s.t s.dots
      if s.dots.any (fun dot => valid dot c) then
        (LoopStep.reject, ⟨s.dots, s.misses + 1, s.t + 1⟩)
      else
        (LoopStep.accept c, ⟨s.dots ++ [c], 0, s.t + 1⟩)
  else
    (LoopStep.done, s)

/-- All pairs of points in the list, in both argument orders, are reported
by the distance predicate as not too close (the predicate returns `false`). -/
def mutually_separated {α : Type} (valid : α → α → Bool) (l : List α) : Prop :=
  List.Pairwise (fun p q => valid p q = false ∧ valid q p = false) l

/-- The Haversine intermediate `result` of `great_circle_distance` after
util.py lines 47-48: `sin(d_phi/2)**2 + cos(phi_s)*cos(phi_f)*sin(d_lambda/2)**2`
with `d_lambda = |lambda_f - lambda_s|` and `d_phi = |phi_s - phi_f|`
(lines 42-45).  A point is a `(latitude, longitude)` pair. -/
noncomputable def haversine_term (standpoint forepoint : ℝ × ℝ) : ℝ :=
  let phi_s := standpoint.1
  let lambda_s := standpoint.2
  let phi_f := forepoint.1
  let lambda_f := forepoint.2
  let d_lambda := |lambda_f - lambda_s|
  let d_phi := |phi_s - phi_f|
  Real.sin (d_phi / 2) ^ 2 +
    Real.cos phi_s * Real.cos phi_f * Real.sin (d_lambda / 2) ^ 2

/-- `great_circle_distance` (util.py lines 29-51):
`result = 2 * arcsin(sqrt(result))` applied to the Haversine intermediate. -/
noncomputable def great_circle_distance (standpoint forepoint : ℝ × ℝ) : ℝ :=
  2 * Real.arcsin (Real.sqrt (haversine_term standpoint forepoint))

/-- `cylindric_to_spheric` (util.py lines 54-75): returns the pair
`(latitude, longitude) = (arcsin(2*height - 1), angle - pi)`. -/
noncomputable def cylindric_to_spheric (height angle : ℝ) : ℝ × ℝ :=
  let longitude := angle - Real.pi
  let latitude := Real.arcsin (2 * height - 1)
  (latitude, longitude)

/-- `iter_dots_on_sphere.point_distance_valid` (util.py lines 166-167):
`great_circle_distance(p1, p2) < self.min_distance`.  Python float
comparison is embedded as the classically decidable real comparison. -/
noncomputable def sphere_point_distance_valid (min_distance : ℝ)
    (p1 p2 : ℝ × ℝ) : Bool :=
  decide (great_circle_distance p1 p2 < min_distance)

/-- A planar sized point `(x, y, radius)` as produced by
`iter_dots_on_plane.create_random_point` (util.py line 221). -/
abbrev PlanePt : Type := ℝ × ℝ × ℝ

/-- `iter_dots_on_plane.point_distance_valid` (util.py lines 208-213), with
`x1 = p1.1`, `y1 = p1.2.1`, `r1 = p1.2.2` and likewise for `p2`:
`min_distance = (r1 + r2) * dot_distance_factor`,
`distance = sqrt((x1 - x2)**2 + (y1 - y2)**2)`, result
`abs(distance) < min_distance`. -/
noncomputable def plane_point_distance_valid (dot_distance_factor : ℝ)
    (p1 p2 : PlanePt) : Bool :=
  let min_distance := (p1.2.2 + p2.2.2) * dot_distance_factor
  let distance := Real.sqrt ((p1.1 - p2.1) ^ 2 + (p1.2.1 - p2.2.1) ^ 2)
  decide (|distance| < min_distance)

/-- The quota passed by `iter_dots_on_plane.__init__` to the base class
(util.py line 202): `n = len(radii)`. -/
def plane_n (radii : List ℝ) : Nat :=
  radii.length

/-- `self.radii = sorted(radii, reverse=True)` (util.py line 205): the
caller's radii sorted in descending order. -/
noncomputable def sorted_radii (radii : List ℝ) : List ℝ :=
  List.insertionSort (fun a b => a ≥ b) radii

/-- `iter_dots_on_plane._rand_in_center` (util.py lines 215-216) applied to
one draw `u` of `random.random()`:
`u * (1 - 2 * border_distance) + border_distance`. -/
def rand_in_center (border_distance u : ℝ) : ℝ :=
  u * (1 - 2 * border_distance) + border_distance

/-- `iter_dots_on_plane.create_random_point` (util.py lines 218-221): draws
`x` and `y` through `_rand_in_center` (the pair `rand t` embeds the two
`random.random()` draws at stream position `t`) and attaches the radius
`self.radii[len(self.dots)]`.  The Python indexing raises `IndexError` out
of range; every reachable call has `len(self.dots) < n = len(radii)` (the
`while` guard), so the embedding's total `getD` with default `0` is never
consulted at its default. -/
noncomputable def create_random_point (radii : List ℝ) (border_distance : ℝ)
    (rand : Nat → ℝ × ℝ) (t : Nat) (dots : List PlanePt) : PlanePt :=
  (rand_in_center border_distance (rand t).1,
   rand_in_center border_distance (rand t).2,
   (sorted_radii radii).getD dots.length 0)

/-- The state after `k` calls to `__next__` on a freshly constructed
`iter_dots_on_plane` (or `iter_dots_in_polygon`, which inherits the radius
handling and overrides only the `x, y` draw, abstracted here by `rand`). -/
noncomputable def planeRun (radii : List ℝ) (border_distance : ℝ)
    (rand : Nat → ℝ × ℝ) (allowed : Nat)
    (valid : PlanePt → PlanePt → Bool) (k : Nat) : SamplerState PlanePt :=
  runState (plane_n radii) allowed valid
    (create_random_point radii border_distance rand) k

/-- A trivially symmetric distance predicate on an executable point type;
a concrete instantiation of the abstract base class used to evaluate the
sampler theorems on concrete inputs. -/
def constFalseValid : Nat → Nat → Bool :=
  fun _ _ => false

/-- A candidate generator over `Nat` points that returns the current random
stream position; a concrete instantiation of the abstract base class used
to evaluate the sampler theorems on concrete inputs. -/
def natStreamGen : Nat → List Nat → Nat :=
  fun t _ => t

theorem nextDot_eq_loop {α : Type} (n allowed : Nat) (valid : α → α → Bool)
    (gen : Nat → List α → α) (s : SamplerState α) :
    nextDot n allowed valid gen s =
      match loopStep n allowed valid gen s with
      | (LoopStep.reject, s') => nextDot n allowed valid gen s'
      | (LoopStep.accept c, s') => (StepResult.yield c, s')
      | (LoopStep.exhaust, s') => (StepResult.exhausted s.dots.length, s')
      | (LoopStep.done, s') => (StepResult.complete, s') := by
  rw [nextDot, loopStep]
  split_ifs <;> first
    | rfl
    | (cases hc : s.dots.any (fun dot => valid dot (gen s.t s.dots)) <;>
        simp [hc])

/-- Characterization of the state reached by one `__next__` call: either the
accepted list is unchanged (exhaustion or completion), or exactly one
candidate `c` was appended, and `c` was drawn by the generator from the
current accepted list and passed the validity check against every
previously accepted point. -/
theorem nextDot_dots_spec {α : Type} (n allowed : Nat) (valid : α → α → Bool)
    (gen : Nat → List α → α) :
    ∀ (m : Nat) (s : SamplerState α), allowed - s.misses ≤ m →
      (nextDot n allowed valid gen s).2.dots = s.dots ∨
      ∃ c t, (nextDot n allowed valid gen s).2.dots = s.dots ++ [c] ∧
        s.dots.any (fun dot => valid dot c) = false ∧ c = gen t s.dots := by
  intro m
  induction m with
  | zero =>
    intro s hm
    rw [nextDot]
    split_ifs with h1 h2
    · left; rfl
    · omega
    · left; rfl
  | succ m ih =>
    intro s hm
    rw [nextDot]
    split_ifs with h1 h2
    · left; rfl
    · cases hc : s.dots.any (fun dot => valid dot (gen s.t s.dots)) with
      | true =>
        simp only [hc, if_true]
        have ih' := ih ⟨s.dots, s.misses + 1, s.t + 1⟩ (by simp; omega)
        rcases ih' with h | ⟨c, t, h, hany, hgen⟩
        · left; exact h
        · right; exact ⟨c, t, h, hany, hgen⟩
      | false =>
        simp only [hc, if_false]
        right
        exact ⟨gen s.t s.dots, s.t, rfl, hc, rfl⟩
    · left; rfl

/-- Fuel-indexed draw-count bound for one `__next__` call: the random stream
advances by at most `allowed - misses + 1` positions, i.e. the retry loop
performs at most `allowed - misses` rejections before the final (accepted)
draw or the exhaustion exit. -/
theorem nextDot_t_le_aux {α : Type} (n allowed : Nat) (valid : α → α → Bool)
    (gen : Nat → List α → α) :
    ∀ (m : Nat) (s : SamplerState α), allowed - s.misses ≤ m →
      (nextDot n allowed valid gen s).2.t ≤ s.t + (allowed - s.misses) + 1 := by
  intro m
  induction m with
  | zero =>
    intro s hm
    rw [nextDot]
    split_ifs with h1 h2
    · show s.t ≤ s.t + (allowed - s.misses) + 1
      omega
    · omega
    · show s.t ≤ s.t + (allowed - s.misses) + 1
      omega
  | succ m ih =>
    intro s hm
    rw [nextDot]
    split_ifs with h1 h2
    · show s.t ≤ s.t + (allowed - s.misses) + 1
      omega
    · cases hc : s.dots.any (fun dot => valid dot (gen s.t s.dots)) with
      | true =>
        simp only [hc, if_true]
        have ih' := ih ⟨s.dots, s.misses + 1, s.t + 1⟩ (by simp; omega)
        simp only [] at ih'
        omega
      | false =>
        simp only [hc, if_false]
        show s.t + 1 ≤ s.t + (allowed - s.misses) + 1
        omega
    · show s.t ≤ s.t + (allowed - s.misses) + 1
      omega

/-- Claim C2: every iteration of the sampler's `while` loop preserves the
bookkeeping invariant — a rejection increments the miss counter by exactly 1
and leaves the accepted list unchanged; an acceptance appends the candidate
and resets the miss counter to 0; the accepted list is append-only (the old
list is a prefix of the new one) and its length never exceeds `n`. -/
theorem sampler_step_bookkeeping {α : Type} (n allowed : Nat)
    (valid : α → α → Bool) (gen : Nat → List α → α) (s : SamplerState α)
    (hlen : s.dots.length ≤ n) :
    ((loopStep n allowed valid gen s).1 = LoopStep.reject →
        (loopStep n allowed valid gen s).2.misses = s.misses + 1 ∧
        (loopStep n allowed valid gen s).2.dots = s.dots) ∧
    (∀ c, (loopStep n allowed valid gen s).1 = LoopStep.accept c →
        (loopStep n allowed valid gen s).2.dots = s.dots ++ [c] ∧
        (loopStep n allowed valid gen s).2.misses = 0) ∧
    s.dots <+: (loopStep n allowed valid gen s).2.dots ∧
    (loopStep n allowed valid gen s).2.dots.length ≤ n := by
  unfold loopStep
  split_ifs with h1 h2
  · exact ⟨fun h => h.elim, ⟨fun c h => h.elim, ⟨⟨[], by simp⟩, hlen⟩⟩⟩
  · cases hc : s.dots.any (fun dot => valid dot (gen s.t s.dots)) with
    | true =>
      simp only [hc, if_true]
      exact ⟨fun _ => ⟨trivial, trivial⟩,
        ⟨fun c h => LoopStep.noConfusion h, ⟨⟨[], by simp⟩, hlen⟩⟩⟩
    | false =>
      simp only [hc, Bool.false_eq_true, if_false]
      refine ⟨fun h => by simp at h, ⟨?_, ⟨⟨[gen s.t s.dots], rfl⟩, ?_⟩⟩⟩
      · intro c h
        injection h with h'
        subst h'
        exact ⟨rfl, trivial⟩
      · simp
        omega
  · exact ⟨fun h => h.elim, ⟨fun c h => h.elim, ⟨⟨[], by simp⟩, hlen⟩⟩⟩

/-- Witness for C2: a concrete accepting step of the sampler instantiated at
`Nat` points. -/
theorem sampler_step_bookkeeping_witness :
    (loopStep 1 1 constFalseValid natStreamGen
        (initState : SamplerState Nat)).2.dots
      = (initState : SamplerState Nat).dots ++ [0] ∧
    (loopStep 1 1 constFalseValid natStreamGen
        (initState : SamplerState Nat)).2.misses = 0 :=
  (sampler_step_bookkeeping 1 1 constFalseValid natStreamGen initState
    (by decide)).2.1 0 (by decide)

/-- Claim C3: every single call to `__next__` terminates (the embedding
`nextDot` is a total function, defined by well-founded recursion on
`allowed - misses`), and the retry loop draws at most
`allowed - misses + 1` candidates — that is, it performs at most
`allowed - misses` rejections before accepting a candidate or signaling
end-of-sequence.  The bound is expressed through the random-stream
position `t`, which advances by exactly one per drawn candidate. -/
theorem next_call_draw_bound {α : Type} (n allowed : Nat)
    (valid : α → α → Bool) (gen : Nat → List α → α) (s : SamplerState α) :
    (nextDot n allowed valid gen s).2.t ≤ s.t + (allowed - s.misses) + 1 :=
  nextDot_t_le_aux n allowed valid gen (allowed - s.misses) s le_rfl

/-- Claim C4: whenever the miss counter has reached `allowed_misses` while
fewer than `n` points are accepted, `__next__` emits the warning diagnostic
reporting how many points were actually produced (the `exhausted` result
carries `len(self.dots)`) and signals end-of-sequence rather than raising an
error, with the state unchanged; consequently every subsequent call leaves
the state fixed (and, by the first conjunct applied to that fixed state,
returns the same exhaustion result). -/
theorem exhaustion_emits_warning_and_stops {α : Type} (n allowed : Nat)
    (valid : α → α → Bool) (gen : Nat → List α → α) (s : SamplerState α)
    (h1 : allowed ≤ s.misses) (h2 : s.dots.length < n) :
    nextDot n allowed valid gen s = (StepResult.exhausted s.dots.length, s) ∧
    ∀ k, (stepState n allowed valid gen)^[k] s = s := by
  have hstep : nextDot n allowed valid gen s
      = (StepResult.exhausted s.dots.length, s) := by
    rw [nextDot, dif_pos h2, dif_pos h1]
  refine ⟨hstep, ?_⟩
  have hfix : stepState n allowed valid gen s = s := by
    unfold stepState
    rw [hstep]
  intro k
  induction k with
  | zero => rfl
  | succ k ih =>
    rw [Function.iterate_succ_apply, hfix, ih]

/-- Witness for C4: a sampler with `allowed_misses = 0` and quota 1 is
exhausted on its very first call, reporting zero produced points. -/
theorem exhaustion_emits_warning_and_stops_witness :
    nextDot 1 0 constFalseValid natStreamGen (initState : SamplerState Nat)
        = (StepResult.exhausted 0, initState) ∧
    ∀ k, (stepState 1 0 constFalseValid natStreamGen)^[k]
        (initState : SamplerState Nat) = initState :=
  exhaustion_emits_warning_and_stops 1 0 constFalseValid natStreamGen
    initState (by decide) (by decide)

/-- The Haversine intermediate is symmetric in its two points: both angular
differences are taken as absolute values and the cosine product commutes. -/
theorem haversine_term_symm (p q : ℝ × ℝ) :
    haversine_term p q = haversine_term q p := by
  unfold haversine_term
  simp only []
  rw [abs_sub_comm p.1 q.1, abs_sub_comm q.2 p.2,
    mul_comm (Real.cos p.1) (Real.cos q.1)]

/-- `great_circle_distance` is symmetric in its two points. -/
theorem great_circle_distance_symm (p q : ℝ × ℝ) :
    great_circle_distance p q = great_circle_distance q p := by
  unfold great_circle_distance
  rw [haversine_term_symm]

/-- The sphere distance predicate is symmetric in its two points. -/
theorem sphere_point_distance_valid_symm (md : ℝ) (p1 p2 : ℝ × ℝ) :
    sphere_point_distance_valid md p1 p2
      = sphere_point_distance_valid md p2 p1 := by
  unfold sphere_point_distance_valid
  rw [great_circle_distance_symm]

/-- The plane distance predicate is symmetric in its two sized points. -/
theorem plane_point_distance_valid_symm (f : ℝ) (p1 p2 : PlanePt) :
    plane_point_distance_valid f p1 p2
      = plane_point_distance_valid f p2 p1 := by
  unfold plane_point_distance_valid
  simp only []
  rw [decide_eq_decide]
  have h1 : (p1.1 - p2.1) ^ 2 + (p1.2.1 - p2.2.1) ^ 2
      = (p2.1 - p1.1) ^ 2 + (p2.2.1 - p1.2.1) ^ 2 := by ring
  have h2 : p1.2.2 + p2.2.2 = p2.2.2 + p1.2.2 := by ring
  rw [h1, h2]

/-- One `__next__` call preserves mutual separation of the accepted list,
provided the distance predicate is symmetric: an accepted candidate was
checked against every previously accepted point in one argument order, and
symmetry supplies the other order. -/
theorem mutually_separated_step {α : Type} (n allowed : Nat)
    (valid : α → α → Bool) (gen : Nat → List α → α)
    (hsym : ∀ p q, valid p q = valid q p) (s : SamplerState α)
    (h : mutually_separated valid s.dots) :
    mutually_separated valid (stepState n allowed valid gen s).dots := by
  have hspec := nextDot_dots_spec n allowed valid gen (allowed - s.misses) s
    le_rfl
  unfold stepState
  rcases hspec with h' | ⟨c, t, h', hany, -⟩
  · rw [h']
    exact h
  · rw [h']
    unfold mutually_separated at h ⊢
    rw [List.pairwise_append]
    refine ⟨h, List.pairwise_singleton _ _, ?_⟩
    intro a ha b hb
    rw [List.mem_singleton] at hb
    rw [hb]
    have hfalse : valid a c = false := by
      have := List.any_eq_false.mp hany a ha
      simpa using this
    exact ⟨hfalse, by rw [hsym]; exact hfalse⟩

/-- Claim C1: in every run of a rejection sampler — completed or
early-terminated, i.e. after any number `k` of `__next__` calls on a fresh
sampler — every pair of distinct accepted points satisfies the active
distance predicate as not too close (the predicate returns `false` for the
pair, in both argument orders).  The first conjunct is the abstract base
class under any symmetric distance predicate; the second and third
instantiate it with the sphere predicate and with the plane/polygon
predicate (both proved symmetric), covering all three sampler variants. -/
theorem accepted_dots_pairwise_separated :
    (∀ {α : Type} (n allowed : Nat) (valid : α → α → Bool)
        (gen : Nat → List α → α), (∀ p q, valid p q = valid q p) →
        ∀ k, mutually_separated valid (runState n allowed valid gen k).dots) ∧
    (∀ (md : ℝ) (n allowed : Nat) (gen : Nat → List (ℝ × ℝ) → ℝ × ℝ)
        (k : Nat),
        mutually_separated (sphere_point_distance_valid md)
          (runState n allowed (sphere_point_distance_valid md) gen k).dots) ∧
    (∀ (f : ℝ) (n allowed : Nat) (gen : Nat → List PlanePt → PlanePt)
        (k : Nat),
        mutually_separated (plane_point_distance_valid f)
          (runState n allowed (plane_point_distance_valid f) gen k).dots) := by
  have habs : ∀ {α : Type} (n allowed : Nat) (valid : α → α → Bool)
      (gen : Nat → List α → α), (∀ p q, valid p q = valid q p) →
      ∀ k, mutually_separated valid (runState n allowed valid gen k).dots := by
    intro α n allowed valid gen hsym k
    induction k with
    | zero => exact List.Pairwise.nil
    | succ k ih =>
      rw [runState, Function.iterate_succ_apply']
      exact mutually_separated_step n allowed valid gen hsym _ ih
  refine ⟨habs, ⟨?_, ?_⟩⟩
  · intro md n allowed gen k
    exact habs n allowed _ gen (fun p q => sphere_point_distance_valid_symm md p q) k
  · intro f n allowed gen k
    exact habs n allowed _ gen (fun p q => plane_point_distance_valid_symm f p q) k

/-- Witness for C1: the abstract conjunct evaluated at a concrete symmetric
predicate over `Nat` points after two calls. -/
theorem accepted_dots_pairwise_separated_witness :
    mutually_separated constFalseValid
      ((runState 2 3 constFalseValid natStreamGen 2).dots) :=
  accepted_dots_pairwise_separated.1 2 3 constFalseValid natStreamGen
    (fun _ _ => rfl) 2

/-- Claim C10: the active distance tests are symmetric in their two point
arguments — `great_circle_distance(p, q) = great_circle_distance(q, p)`,
`iter_dots_on_plane.point_distance_valid(p1, p2)` equals
`point_distance_valid(p2, p1)`, and likewise the sphere predicate; hence
the sampler's one-sided check of a new candidate against previously
accepted points suffices for the unordered pairwise separation invariant. -/
theorem distance_predicates_symmetric :
    (∀ p q : ℝ × ℝ, great_circle_distance p q = great_circle_distance q p) ∧
    (∀ (f : ℝ) (p1 p2 : PlanePt),
        plane_point_distance_valid f p1 p2
          = plane_point_distance_valid f p2 p1) ∧
    (∀ (md : ℝ) (p1 p2 : ℝ × ℝ),
        sphere_point_distance_valid md p1 p2
          = sphere_point_distance_valid md p2 p1) :=
  ⟨great_circle_distance_symm,
    ⟨plane_point_distance_valid_symm, sphere_point_distance_valid_symm⟩⟩

/-- Claim C7: for every height in `[0, 1]` and every angle,
`cylindric_to_spheric(height, angle)` is exactly the pair
`(asin(2*height - 1), angle - pi)`; in particular height 0 maps to latitude
`-pi/2` and height 1 maps to latitude `pi/2`, both with longitude
`angle - pi`. -/
theorem cylindric_to_spheric_spec :
    (∀ height angle : ℝ, 0 ≤ height → height ≤ 1 →
        cylindric_to_spheric height angle
          = (Real.arcsin (2 * height - 1), angle - Real.pi)) ∧
    (∀ theta : ℝ,
        cylindric_to_spheric 0 theta = (-(Real.pi / 2), theta - Real.pi)) ∧
    (∀ theta : ℝ,
        cylindric_to_spheric 1 theta = (Real.pi / 2, theta - Real.pi)) := by
  refine ⟨fun height angle _ _ => rfl, ⟨fun theta => ?_, fun theta => ?_⟩⟩
  · unfold cylindric_to_spheric
    norm_num
  · unfold cylindric_to_spheric
    norm_num

/-- Witness for C7: the general form evaluated at height `1/2`, angle `0`. -/
theorem cylindric_to_spheric_spec_witness :
    cylindric_to_spheric (1 / 2) 0
      = (Real.arcsin (2 * (1 / 2) - 1), 0 - Real.pi) :=
  cylindric_to_spheric_spec.1 (1 / 2) 0 (by norm_num) (by norm_num)

/-- Claim C8: in exact real arithmetic over the Haversine formula as
implemented, the distance from the south pole `(-pi/2, a)` to the north pole
`(pi/2, b)` is exactly `pi`, for all longitudes `a` and `b`: the latitude
difference is `pi`, its half-angle sine squared is 1, the cosine factor
vanishes at the poles, and `2 * asin(sqrt(1)) = pi`. -/
theorem great_circle_distance_pole_to_pole (a b : ℝ) :
    great_circle_distance (-(Real.pi / 2), a) (Real.pi / 2, b) = Real.pi := by
  have hterm : haversine_term (-(Real.pi / 2), a) (Real.pi / 2, b) = 1 := by
    unfold haversine_term
    simp only []
    have hphi : |(-(Real.pi / 2) : ℝ) - Real.pi / 2| = Real.pi := by
      have h : (-(Real.pi / 2) : ℝ) - Real.pi / 2 = -Real.pi := by ring
      rw [h, abs_neg, abs_of_nonneg Real.pi_pos.le]
    rw [hphi, Real.sin_pi_div_two, Real.cos_neg, Real.cos_pi_div_two]
    ring
  unfold great_circle_distance
  rw [hterm, Real.sqrt_one, Real.arcsin_one]
  ring

/-- Claim C9: for latitudes in `[-pi/2, pi/2]` the Haversine intermediate
`a = sin^2(d_phi/2) + cos(phi_s)*cos(phi_f)*sin^2(d_lambda/2)` lies in
`[0, 1]`, so `sqrt` and `asin` are applied within their domains
(`sqrt a` lies in `[0, 1]`), and the returned distance lies in `[0, pi]`. -/
theorem haversine_term_in_unit_interval (standpoint forepoint : ℝ × ℝ)
    (h1 : -(Real.pi / 2) ≤ standpoint.1) (h2 : standpoint.1 ≤ Real.pi / 2)
    (h3 : -(Real.pi / 2) ≤ forepoint.1) (h4 : forepoint.1 ≤ Real.pi / 2) :
    0 ≤ haversine_term standpoint forepoint ∧
    haversine_term standpoint forepoint ≤ 1 ∧
    0 ≤ Real.sqrt (haversine_term standpoint forepoint) ∧
    Real.sqrt (haversine_term standpoint forepoint) ≤ 1 ∧
    0 ≤ great_circle_distance standpoint forepoint ∧
    great_circle_distance standpoint forepoint ≤ Real.pi := by
  have hcs : 0 ≤ Real.cos standpoint.1 :=
    Real.cos_nonneg_of_mem_Icc ⟨h1, h2⟩
  have hcf : 0 ≤ Real.cos forepoint.1 :=
    Real.cos_nonneg_of_mem_Icc ⟨h3, h4⟩
  have hlower : 0 ≤ haversine_term standpoint forepoint := by
    unfold haversine_term
    simp only []
    have hp : 0 ≤ Real.cos standpoint.1 * Real.cos forepoint.1 *
        Real.sin (|forepoint.2 - standpoint.2| / 2) ^ 2 :=
      mul_nonneg (mul_nonneg hcs hcf) (sq_nonneg _)
    have hs : 0 ≤ Real.sin (|standpoint.1 - forepoint.1| / 2) ^ 2 :=
      sq_nonneg _
    linarith
  have hupper : haversine_term standpoint forepoint ≤ 1 := by
    unfold haversine_term
    simp only []
    have habs : Real.sin (|standpoint.1 - forepoint.1| / 2) ^ 2
        = Real.sin ((standpoint.1 - forepoint.1) / 2) ^ 2 := by
      rcases abs_cases (standpoint.1 - forepoint.1) with ⟨he, -⟩ | ⟨he, -⟩
      · rw [he]
      · rw [he, neg_div, Real.sin_neg, neg_sq]
    rw [habs]
    have hhalf : Real.sin ((standpoint.1 - forepoint.1) / 2) ^ 2
        = 1 / 2 - Real.cos (standpoint.1 - forepoint.1) / 2 := by
      rw [Real.sin_sq_eq_half_sub]
      have h : 2 * ((standpoint.1 - forepoint.1) / 2)
          = standpoint.1 - forepoint.1 := by ring
      rw [h]
    rw [hhalf, Real.cos_sub]
    have hsinle : Real.sin (|forepoint.2 - standpoint.2| / 2) ^ 2 ≤ 1 :=
      Real.sin_sq_le_one _
    have hcos_add : Real.cos (standpoint.1 + forepoint.1) ≤ 1 :=
      Real.cos_le_one _
    rw [Real.cos_add] at hcos_add
    have hprod : Real.cos standpoint.1 * Real.cos forepoint.1 *
        Real.sin (|forepoint.2 - standpoint.2| / 2) ^ 2
        ≤ Real.cos standpoint.1 * Real.cos forepoint.1 :=
      mul_le_of_le_one_right (mul_nonneg hcs hcf) hsinle
    linarith
  refine ⟨hlower, hupper, Real.sqrt_nonneg _, Real.sqrt_le_one.mpr hupper, ?_, ?_⟩
  · unfold great_circle_distance
    have := Real.arcsin_nonneg.mpr (Real.sqrt_nonneg
      (haversine_term standpoint forepoint))
    linarith
  · unfold great_circle_distance
    have := Real.arcsin_le_pi_div_two
      (Real.sqrt (haversine_term standpoint forepoint))
    linarith

/-- Witness for C9: evaluated at the origin pair `((0,0), (0,0))`. -/
theorem haversine_term_in_unit_interval_witness :
    0 ≤ haversine_term ((0 : ℝ), (0 : ℝ)) ((0 : ℝ), (0 : ℝ)) ∧
    haversine_term ((0 : ℝ), (0 : ℝ)) ((0 : ℝ), (0 : ℝ)) ≤ 1 ∧
    0 ≤ Real.sqrt (haversine_term ((0 : ℝ), (0 : ℝ)) ((0 : ℝ), (0 : ℝ))) ∧
    Real.sqrt (haversine_term ((0 : ℝ), (0 : ℝ)) ((0 : ℝ), (0 : ℝ))) ≤ 1 ∧
    0 ≤ great_circle_distance ((0 : ℝ), (0 : ℝ)) ((0 : ℝ), (0 : ℝ)) ∧
    great_circle_distance ((0 : ℝ), (0 : ℝ)) ((0 : ℝ), (0 : ℝ)) ≤ Real.pi :=
  haversine_term_in_unit_interval ((0 : ℝ), (0 : ℝ)) ((0 : ℝ), (0 : ℝ))
    (by simp; positivity) (by positivity) (by simp; positivity) (by positivity)

/-- Radius bookkeeping invariant of the plane/polygon run: every accepted
point at position `i` carries the `i`-th entry of the descending-sorted
radius sequence.  Proved by induction over the calls, using the
characterization of one call: the accepted list either stays unchanged or
grows by one candidate drawn by `create_random_point` from the current
accepted list, whose radius is the entry at index `len(dots)`. -/
theorem plane_run_radius_aux (radii : List ℝ) (b : ℝ) (rand : Nat → ℝ × ℝ)
    (allowed : Nat) (valid : PlanePt → PlanePt → Bool) :
    ∀ k i, i < (planeRun radii b rand allowed valid k).dots.length →
      ((planeRun radii b rand allowed valid k).dots.getD i default).2.2
        = (sorted_radii radii).getD i 0 := by
  intro k
  induction k with
  | zero =>
    intro i hi
    simp [planeRun, runState, initState] at hi
  | succ k ih =>
    have hrw : planeRun radii b rand allowed valid (k + 1)
        = stepState (plane_n radii) allowed valid
            (create_random_point radii b rand)
            (planeRun radii b rand allowed valid k) := by
      unfold planeRun runState
      rw [Function.iterate_succ_apply']
    intro i hi
    rw [hrw] at hi ⊢
    have hspec := nextDot_dots_spec (plane_n radii) allowed valid
      (create_random_point radii b rand)
      (allowed - (planeRun radii b rand allowed valid k).misses)
      (planeRun radii b rand allowed valid k) le_rfl
    unfold stepState at hi ⊢
    rcases hspec with h' | ⟨c, t, h', -, hcgen⟩
    · rw [h'] at hi ⊢
      exact ih i hi
    · rw [h'] at hi ⊢
      rcases Nat.lt_or_ge i
          (planeRun radii b rand allowed valid k).dots.length with hlt | hge
      · rw [List.getD_append _ _ _ _ hlt]
        exact ih i hlt
      · have hlen : i = (planeRun radii b rand allowed valid k).dots.length := by
          rw [List.length_append] at hi
          simp at hi
          omega
        rw [List.getD_append_right _ _ _ _ hge, hlen]
        simp only [Nat.sub_self, List.getD_cons_zero]
        rw [hcgen]
        rfl

/-- A rejected iteration of the `while` loop leaves the accepted list
unchanged (and increments only the miss counter and stream position). -/
theorem loopStep_reject_dots {α : Type} (n allowed : Nat)
    (valid : α → α → Bool) (gen : Nat → List α → α) (s : SamplerState α)
    (h : (loopStep n allowed valid gen s).1 = LoopStep.reject) :
    (loopStep n allowed valid gen s).2.dots = s.dots := by
  unfold loopStep at h ⊢
  by_cases h1 : s.dots.length < n
  · rw [if_pos h1] at h ⊢
    by_cases h2 : allowed ≤ s.misses
    · rw [if_pos h2] at h
      cases h
    · rw [if_neg h2] at h ⊢
      cases hc : s.dots.any (fun dot => valid dot (gen s.t s.dots)) with
      | true =>
        simp only [hc, if_true]
      | false =>
        simp only [hc, Bool.false_eq_true, if_false] at h
        cases h
  · rw [if_neg h1] at h
    cases h

/-- Claim C5: in the plane sampler (and its polygon subclass), the radius
attached to each candidate is the entry of the (descending-sorted) radius
sequence at index `len(accepted)`; the quota `n` equals the length of the
supplied radius sequence; the sequence actually consumed is the caller's
radii sorted descending (a sorted permutation); every accepted point at
position `i` carries the `i`-th sorted radius (radii are consumed strictly
in acceptance order, one per accepted point); and a rejected candidate does
not advance consumption — the accepted list is unchanged and the next
candidate drawn carries the same ordinal slot's radius. -/
theorem plane_radii_consumed_in_acceptance_order (radii : List ℝ) (b : ℝ)
    (rand : Nat → ℝ × ℝ) (allowed : Nat) (valid : PlanePt → PlanePt → Bool)
    (k : Nat) :
    plane_n radii = radii.length ∧
    List.Sorted (fun x y => x ≥ y) (sorted_radii radii) ∧
    (sorted_radii radii).Perm radii ∧
    (∀ (t : Nat) (dots : List PlanePt),
        (create_random_point radii b rand t dots).2.2
          = (sorted_radii radii).getD dots.length 0) ∧
    (∀ i, i < (planeRun radii b rand allowed valid k).dots.length →
        ((planeRun radii b rand allowed valid k).dots.getD i default).2.2
          = (sorted_radii radii).getD i 0) ∧
    (∀ s : SamplerState PlanePt,
        (loopStep (plane_n radii) allowed valid
            (create_random_point radii b rand) s).1 = LoopStep.reject →
        (loopStep (plane_n radii) allowed valid
            (create_random_point radii b rand) s).2.dots = s.dots ∧
        (create_random_point radii b rand
            (loopStep (plane_n radii) allowed valid
              (create_random_point radii b rand) s).2.t
            (loopStep (plane_n radii) allowed valid
              (create_random_point radii b rand) s).2.dots).2.2
          = (create_random_point radii b rand s.t s.dots).2.2) := by
  refine ⟨rfl, List.sorted_insertionSort _ radii, List.perm_insertionSort _ radii,
    fun t dots => rfl, plane_run_radius_aux radii b rand allowed valid k, ?_⟩
  intro s hrej
  have hdots : (loopStep (plane_n radii) allowed valid
      (create_random_point radii b rand) s).2.dots = s.dots :=
    loopStep_reject_dots (plane_n radii) allowed valid
      (create_random_point radii b rand) s hrej
  refine ⟨hdots, ?_⟩
  simp only [create_random_point]
  rw [hdots]

/-- Witness for C5: on radii `[1, 3, 2]`, after one accepting call the first
accepted point carries the first descending-sorted radius; and a concrete
rejecting iteration leaves the accepted list unchanged. -/
theorem plane_radii_consumed_in_acceptance_order_witness :
    ((planeRun [1, 3, 2] 0 (fun _ => ((0 : ℝ), (0 : ℝ))) 5
        (fun _ _ => false) 1).dots.getD 0 default).2.2
      = (sorted_radii [1, 3, 2]).getD 0 0 ∧
    (loopStep (plane_n [1, 3, 2]) 5 (fun _ _ => true)
        (create_random_point [1, 3, 2] 0 (fun _ => ((0 : ℝ), (0 : ℝ))))
        ⟨[((0 : ℝ), (0 : ℝ), (0 : ℝ))], 0, 0⟩).2.dots
      = [((0 : ℝ), (0 : ℝ), (0 : ℝ))] := by
  constructor
  · refine (plane_radii_consumed_in_acceptance_order [1, 3, 2] 0
      (fun _ => ((0 : ℝ), (0 : ℝ))) 5 (fun _ _ => false) 1).2.2.2.2.1 0 ?_
    unfold planeRun runState
    rw [Function.iterate_succ_apply, Function.iterate_zero_apply]
    unfold stepState
    rw [nextDot]
    rw [dif_pos (by simp [initState, plane_n]), dif_neg (by simp [initState])]
    simp [initState]
  · exact ((plane_radii_consumed_in_acceptance_order [1, 3, 2] 0
      (fun _ => ((0 : ℝ), (0 : ℝ))) 5 (fun _ _ => true) 1).2.2.2.2.2
      ⟨[((0 : ℝ), (0 : ℝ), (0 : ℝ))], 0, 0⟩ rfl).1

/-- Counterexample to C6: with an empty radius sequence the plane sampler is
constructed without any error (`n = len([]) = 0`) and its very first
`__next__` call signals plain end-of-sequence with zero accepted points —
i.e. the empty radius sequence silently yields an empty sequence, and no
fail-fast InvalidInput error exists anywhere in the construction path. -/
theorem no_input_validation_counterexample :
    plane_n ([] : List ℝ) = 0 ∧
    nextDot (plane_n ([] : List ℝ)) 10000 (plane_point_distance_valid 1)
        (create_random_point [] 0 (fun _ => ((0 : ℝ), (0 : ℝ)))) initState
      = (StepResult.complete, initState) := by
  refine ⟨rfl, ?_⟩
  rw [nextDot]
  rw [dif_neg (by simp [initState, plane_n])]

/-- Claim C6 (amended): the sampler performs no validation of its
construction parameters.  An empty radius sequence yields quota `n = 0`,
and every call on the fresh sampler signals plain end-of-sequence with the
state unchanged, so the run silently produces the empty sequence; and a
non-positive derived minimum distance (as produced by negative radii or a
non-positive distance factor) makes the plane distance predicate report
every candidate as not too close, so sampling silently proceeds.  No
fail-fast InvalidInput error is raised at construction or first use. -/
theorem no_input_validation_behavior (allowed : Nat)
    (valid : PlanePt → PlanePt → Bool) (b : ℝ) (rand : Nat → ℝ × ℝ) :
    (nextDot (plane_n ([] : List ℝ)) allowed valid
        (create_random_point [] b rand) initState
      = (StepResult.complete, initState)) ∧
    (∀ k, (runState (plane_n ([] : List ℝ)) allowed valid
        (create_random_point [] b rand) k).dots = []) ∧
    (∀ (f : ℝ) (p1 p2 : PlanePt), (p1.2.2 + p2.2.2) * f ≤ 0 →
        plane_point_distance_valid f p1 p2 = false) := by
  have hfix : ∀ s : SamplerState PlanePt,
      stepState (plane_n ([] : List ℝ)) allowed valid
        (create_random_point [] b rand) s = s := by
    intro s
    unfold stepState
    rw [nextDot, dif_neg (by simp [plane_n])]
  refine ⟨?_, ?_, ?_⟩
  · rw [nextDot, dif_neg (by simp [initState, plane_n])]
  · intro k
    induction k with
    | zero => rfl
    | succ k ih =>
      rw [runState, Function.iterate_succ_apply', hfix]
      exact ih
  · intro f p1 p2 hle
    unfold plane_point_distance_valid
    simp only []
    rw [decide_eq_false_iff_not]
    intro habs
    have hnn : (0 : ℝ) ≤
        |Real.sqrt ((p1.1 - p2.1) ^ 2 + (p1.2.1 - p2.2.1) ^ 2)| :=
      abs_nonneg _
    linarith

/-- Witness for C6 (amended): a zero radius with zero distance factor gives
a non-positive minimum distance, and the predicate accepts the coincident
pair. -/
theorem no_input_validation_behavior_witness :
    plane_point_distance_valid 0 ((0 : ℝ), (0 : ℝ), (0 : ℝ))
        ((0 : ℝ), (0 : ℝ), (0 : ℝ)) = false :=
  (no_input_validation_behavior 10000 (plane_point_distance_valid 1) 0
      (fun _ => ((0 : ℝ), (0 : ℝ)))).2.2 0
    ((0 : ℝ), (0 : ℝ), (0 : ℝ)) ((0 : ℝ), (0 : ℝ), (0 : ℝ)) (by norm_num)
